import Mathlib

/-!
Shallow embedding of the coordination engine of `p2p-comm-optimism`
(`src/dapp_logic/coordinators.py`): the NFT-mint intent coordinator, the
DAO voting coordinator and the game-state (session) coordinator.

Python dictionaries keyed by strings are embedded as insertion-ordered
association lists (`List (String × α)`); `d[k] = v` is `alSet` (replace in
place, else append, matching CPython's order-preserving dicts) and `d.get(k)`
is `alGet`.  `time.time()` is passed in explicitly as an integer `now`;
transport broadcasts are external I/O and are reflected, where observable,
in a returned value.  The ledger client's outcome is an explicit
`LedgerResult` argument, and the SHA-256 state digest of checkpoints is an
uninterpreted function argument `digest` (the claims never inspect digests).
-/

/-- Lookup in an insertion-ordered association list (Python `d.get(k)` /
`k in d`). -/
def alGet {α : Type} (l : List (String × α)) (k : String) : Option α :=
  match l with
  | [] => none
  | (k', v) :: rest => if k' = k then some v else alGet rest k

/-- Assignment `d[k] = v` on an insertion-ordered association list: replace
the binding in place if the key is present, otherwise append. -/
def alSet {α : Type} (l : List (String × α)) (k : String) (v : α) :
    List (String × α) :=
  match l with
  | [] => [(k, v)]
  | (k', v') :: rest =>
    if k' = k then (k, v) :: rest else (k', v') :: alSet rest k v

/-! ## DAO voting coordinator (`DAOVotingCoordinator`)

A proposal is the dict built in `create_proposal` / `_handle_proposal_message`;
the `result` and `onchain_status` keys are absent until finalization, hence
`Option`.  The opaque `data` payload is carried as a string.  Vote weights are
Python ints, embedded as `Int`; wall-clock instants as `Int` seconds. -/

/-- One entry of a proposal's vote map: `{"vote": ..., "power": ...,
"timestamp": ...}`. -/
structure VoteData where
  vote : Bool
  power : Int
  timestamp : Int
deriving DecidableEq

/-- The `proposal["result"]` summary written by `_finalize_proposal`. -/
structure PropResult where
  passed : Bool
  yes_votes : Int
  no_votes : Int
  total_power : Int
  finalized_at : Int
deriving DecidableEq

/-- A proposal record as stored in `DAOVotingCoordinator.proposals`. -/
structure Proposal where
  proposal_id : String
  creator : String
  data : String
  created_at : Int
  voting_ends : Int
  votes : List (String × VoteData)
  status : String
  result : Option PropResult
  onchain_status : Option String
deriving DecidableEq

/-- The mutable state of one peer's `DAOVotingCoordinator`:
`self.p2p_node.peer_id` and `self.proposals`. -/
structure VotingState where
  peer_id : String
  proposals : List (String × Proposal)
deriving DecidableEq

/-- `DAOVotingCoordinator.create_proposal`: build the proposal dict with
status `"active"`, deadline `now + voting_duration`, store it and return its
id (the broadcast is external I/O). -/
def create_proposal (st : VotingState) (now : Int) (proposal_data : String)
    (voting_duration : Int) : VotingState × String :=
  let proposal_id := "prop_" ++ st.peer_id ++ "_" ++ toString now
  let proposal : Proposal :=
    { proposal_id := proposal_id
      creator := st.peer_id
      data := proposal_data
      created_at := now
      voting_ends := now + voting_duration
      votes := []
      status := "active"
      result := none
      onchain_status := none }
  ({ st with proposals := alSet st.proposals proposal_id proposal },
   proposal_id)

/-- `DAOVotingCoordinator.submit_vote`: `False` when the proposal is unknown
or `now > voting_ends`; otherwise record the local vote under `peer_id`
(overwriting), broadcast (external), and return `True`. -/
def submit_vote (st : VotingState) (now : Int) (proposal_id : String)
    (vote : Bool) (voting_power : Int) : VotingState × Bool :=
  match alGet st.proposals proposal_id with
  | none => (st, false)
  | some proposal =>
    if now > proposal.voting_ends then (st, false)
    else
      let proposal' := { proposal with
        votes := alSet proposal.votes st.peer_id
          { vote := vote, power := voting_power, timestamp := now } }
      ({ st with proposals := alSet st.proposals proposal_id proposal' },
       true)

/-- `DAOVotingCoordinator._handle_proposal_message`: unconditionally store a
fresh proposal record with status `"active"` and an empty vote map under the
message's proposal id. -/
def handle_proposal_message (st : VotingState) (proposal_id creator : String)
    (data : String) (voting_duration timestamp : Int) : VotingState :=
  let proposal : Proposal :=
    { proposal_id := proposal_id
      creator := creator
      data := data
      created_at := timestamp
      voting_ends := timestamp + voting_duration
      votes := []
      status := "active"
      result := none
      onchain_status := none }
  { st with proposals := alSet st.proposals proposal_id proposal }

/-- The vote-tally loop of `_finalize_proposal`, returning
`(yes_votes, no_votes, total_power)`. -/
def tallyVotes (votes : List (String × VoteData)) : Int × Int × Int :=
  votes.foldl
    (fun acc kv =>
      let power := kv.2.power
      if kv.2.vote then (acc.1 + power, acc.2.1, acc.2.2 + power)
      else (acc.1, acc.2.1 + power, acc.2.2 + power))
    (0, 0, 0)

/-- `DAOVotingCoordinator._finalize_proposal`: status passes through
`"finalizing"`, votes are tallied, the result summary is stored and the final
status is `"passed"` iff `yes_votes > no_votes`; a passed proposal created
locally is additionally submitted to the ledger, setting
`onchain_status = "submitted"` (the real call is stubbed in the source and
cannot fail). -/
def finalize_proposal (st : VotingState) (now : Int) (proposal_id : String) :
    VotingState :=
  match alGet st.proposals proposal_id with
  | none => st
  | some proposal =>
    let t := tallyVotes proposal.votes
    let passed := t.1 > t.2.1
    let result : PropResult :=
      { passed := passed
        yes_votes := t.1
        no_votes := t.2.1
        total_power := t.2.2
        finalized_at := now }
    let proposal' := { proposal with
      status := if passed then "passed" else "rejected"
      result := some result }
    let proposal'' :=
      if passed ∧ proposal.creator = st.peer_id then
        { proposal' with onchain_status := some "submitted" }
      else proposal'
    { st with proposals := alSet st.proposals proposal_id proposal'' }

/-- `DAOVotingCoordinator._check_finalization`: only `"active"` proposals
finalize, when the deadline has passed or the vote count has reached
`connected_peers + 1`. -/
def check_finalization (st : VotingState) (now : Int) (connected_peers : Nat)
    (proposal_id : String) : VotingState :=
  match alGet st.proposals proposal_id with
  | none => st
  | some proposal =>
    if proposal.status ≠ "active" then st
    else
      let total_peers := connected_peers + 1
      if now > proposal.voting_ends ∨ proposal.votes.length ≥ total_peers then
        finalize_proposal st now proposal_id
      else st

/-- `DAOVotingCoordinator._handle_vote_message`: drop votes for unknown
proposals; otherwise record/overwrite the sender's vote and check
finalization. -/
def handle_vote_message (st : VotingState) (now : Int) (connected_peers : Nat)
    (proposal_id sender_id : String) (vote : Bool) (voting_power : Int) :
    VotingState :=
  match alGet st.proposals proposal_id with
  | none => st
  | some proposal =>
    let proposal' := { proposal with
      votes := alSet proposal.votes sender_id
        { vote := vote, power := voting_power, timestamp := now } }
    let st' := { st with proposals := alSet st.proposals proposal_id proposal' }
    check_finalization st' now connected_peers proposal_id

/-! ## Game state coordinator (`GameStateCoordinator`)

The JSON-like `state` blob and the `move_data` payloads are embedded as
string-keyed association lists over an atomic value type.  The SHA-256 hex
digest of the canonical state serialization is an uninterpreted argument
`digest` — no claim inspects a digest's value. -/

/-- An atomic value of a game-state / move-payload dict. -/
inductive BlobVal where
  | str (s : String)
  | num (n : Int)
deriving DecidableEq

/-- A JSON-object-like dict. -/
def Blob : Type := List (String × BlobVal)

instance : DecidableEq Blob := by
  unfold Blob
  infer_instance

/-- `d.get(key, 0)` for an integer-valued entry, as in
`game["state"].get("turn_count", 0)` (the source would raise on a
non-integer value there; no claim reaches that case). -/
def blobGetNum (b : Blob) (k : String) : Int :=
  match alGet b k with
  | some (BlobVal.num n) => n
  | _ => 0

/-- A move dict as appended to `game["moves"]`. -/
structure Move where
  player : String
  data : Blob
  sequence : Int
  timestamp : Int
deriving DecidableEq

/-- A checkpoint record as appended to `game["checkpoints"]` by
`_create_checkpoint`. -/
structure Checkpoint where
  game_id : String
  sequence : Int
  state_hash : String
  timestamp : Int
  move_count : Nat
deriving DecidableEq

/-- A game-session dict as stored in `GameStateCoordinator.games`
(`checkpoints` is materialized by `game.get("checkpoints", [])`, so an
absent key and `[]` coincide). -/
structure Game where
  game_id : String
  creator : String
  game_type : String
  state : Blob
  moves : List Move
  sequence : Int
  players : List String
  status : String
  last_checkpoint : Int
  checkpoints : List Checkpoint
deriving DecidableEq

/-- The mutable state of one peer's `GameStateCoordinator`. -/
structure GameCoordState where
  peer_id : String
  games : List (String × Game)
deriving DecidableEq

/-- `GameStateCoordinator.create_game`: fresh session with sequence `0`,
empty move log, the creator as sole player, status `"active"`. -/
def create_game (st : GameCoordState) (now : Int) (game_type : String)
    (initial_state : Blob) : GameCoordState × String :=
  let game_id := "game_" ++ st.peer_id ++ "_" ++ toString now
  let game : Game :=
    { game_id := game_id
      creator := st.peer_id
      game_type := game_type
      state := initial_state
      moves := []
      sequence := 0
      players := [st.peer_id]
      status := "active"
      last_checkpoint := now
      checkpoints := [] }
  ({ st with games := alSet st.games game_id game }, game_id)

/-- `GameStateCoordinator._update_game_state`: for `"turn_based"` games set
`state["last_player"]` and bump `state["turn_count"]`; other game types are
untouched. -/
def update_game_state (game : Game) (move : Move) : Game :=
  if game.game_type = "turn_based" then
    let s1 := alSet game.state "last_player" (BlobVal.str move.player)
    let s2 := alSet s1 "turn_count" (BlobVal.num (blobGetNum s1 "turn_count" + 1))
    { game with state := s2 }
  else game

/-- `GameStateCoordinator._create_checkpoint`: append a checkpoint record
carrying the current sequence, state digest and move count, and reset
`last_checkpoint` to `now` (the move log itself is NOT touched). -/
def create_checkpoint (st : GameCoordState) (now : Int)
    (digest : Blob → String) (game_id : String) : GameCoordState :=
  match alGet st.games game_id with
  | none => st
  | some game =>
    let ckpt : Checkpoint :=
      { game_id := game_id
        sequence := game.sequence
        state_hash := digest game.state
        timestamp := now
        move_count := game.moves.length }
    let game' := { game with
      last_checkpoint := now
      checkpoints := game.checkpoints ++ [ckpt] }
    { st with games := alSet st.games game_id game' }

/-- `GameStateCoordinator._check_checkpoint`: checkpoint when
`len(game["moves"]) >= 10` (the source computes `moves_since_checkpoint` as
the TOTAL move count) or `now - last_checkpoint >= 300`. -/
def check_checkpoint (st : GameCoordState) (now : Int)
    (digest : Blob → String) (game_id : String) : GameCoordState :=
  match alGet st.games game_id with
  | none => st
  | some game =>
    let moves_since_checkpoint := game.moves.length
    let time_since_checkpoint := now - game.last_checkpoint
    if moves_since_checkpoint ≥ 10 ∨ time_since_checkpoint ≥ 300 then
      create_checkpoint st now digest game_id
    else st

/-- `GameStateCoordinator.make_move`: reject unknown or non-active games;
otherwise append the move stamped with the current sequence counter,
increment the counter, apply the state-update rule, broadcast (external)
and evaluate checkpoint scheduling. -/
def make_move (st : GameCoordState) (now : Int) (digest : Blob → String)
    (game_id : String) (move_data : Blob) : GameCoordState × Bool :=
  match alGet st.games game_id with
  | none => (st, false)
  | some game =>
    if game.status ≠ "active" then (st, false)
    else
      let move : Move :=
        { player := st.peer_id, data := move_data,
          sequence := game.sequence, timestamp := now }
      let game1 := { game with
        moves := game.moves ++ [move], sequence := game.sequence + 1 }
      let game2 := update_game_state game1 move
      let st1 := { st with games := alSet st.games game_id game2 }
      (check_checkpoint st1 now digest game_id, true)

/-- `GameStateCoordinator._handle_move_message`: drop moves for unknown games
and moves whose sequence number differs from the session counter; otherwise
append, increment the counter and apply the state-update rule (no checkpoint
evaluation on the remote-move path). -/
def handle_move_message (st : GameCoordState) (now : Int)
    (game_id sender_id : String) (move_data : Blob) (sequence : Int) :
    GameCoordState :=
  match alGet st.games game_id with
  | none => st
  | some game =>
    if sequence ≠ game.sequence then st
    else
      let move : Move :=
        { player := sender_id, data := move_data,
          sequence := sequence, timestamp := now }
      let game1 := { game with
        moves := game.moves ++ [move], sequence := game.sequence + 1 }
      let game2 := update_game_state game1 move
      { st with games := alSet st.games game_id game2 }

/-! ## NFT mint intent coordinator (`NFTMintCoordinator`)

`sorted(..., key=lambda x: (x.priority, x.timestamp), reverse=True)` is a
stable descending sort on the lexicographic key `(priority, timestamp)`; it
is embedded as a left-fold insertion sort that inserts each element after
all earlier elements whose key is `≥` its own, which reproduces CPython's
stable `reverse=True` ordering.  The ledger interaction of
`_execute_intent` is summarized by an explicit `LedgerResult`. -/

/-- The `IntentData` dataclass. -/
structure IntentData where
  intent_id : String
  sender_id : String
  contract_address : String
  function_call : String
  gas_estimate : Int
  priority : Int
  timestamp : Int
  status : String := "pending"
deriving DecidableEq

/-- A coordination-round dict.  A locally opened round
(`_coordinate_intents`) has the `intents` key and no `proposed_intent` key; a
round initialized from a peer's message (`_handle_coordination_message`) has
`proposed_intent` and no `intents`; `Option` encodes key absence. -/
structure CoordRound where
  contract : String
  intents : Option (List String)
  proposed_intent : Option String
  votes : List (String × Bool)
  status : String
deriving DecidableEq

/-- The mutable state of one peer's `NFTMintCoordinator`. -/
structure NFTState where
  peer_id : String
  intents : List (String × IntentData)
  coordination_rounds : List (String × CoordRound)
deriving DecidableEq

/-- Outcome of the ledger calls inside `_execute_intent`:
`success ok` = `send_transaction` and the receipt wait complete with receipt
status 1 (`ok = true`) or another status (`ok = false`); `failure` = an
exception in either call. -/
inductive LedgerResult where
  | success (receipt_ok : Bool)
  | failure
deriving DecidableEq

/-- Python tuple comparison `(a.priority, a.timestamp) < (b.priority,
b.timestamp)`. -/
def intentKeyLt (a b : IntentData) : Bool :=
  a.priority < b.priority ∨ (a.priority = b.priority ∧ a.timestamp < b.timestamp)

/-- Insert `x` before the first element whose key is strictly below `x`'s
(after all elements with key `≥`), keeping a descending list descending. -/
def insertDescIntent (x : IntentData) : List IntentData → List IntentData
  | [] => [x]
  | y :: ys =>
    if intentKeyLt y x then x :: y :: ys else y :: insertDescIntent x ys

/-- `sorted(contract_intents, key=lambda x: (x.priority, x.timestamp),
reverse=True)`: stable descending insertion sort. -/
def sortIntentsDesc (xs : List IntentData) : List IntentData :=
  xs.foldl (fun acc x => insertDescIntent x acc) []

/-- The `contract_intents` list-comprehension of `_coordinate_intents`:
pending intents targeting `contract_address`, in store (insertion) order. -/
def pendingIntentsFor (st : NFTState) (contract_address : String) :
    List IntentData :=
  (st.intents.map (fun kv => kv.2)).filter
    (fun intent => intent.contract_address == contract_address &&
      intent.status == "pending")

/-- `NFTMintCoordinator._coordinate_intents`: with two or more pending
intents on the contract, open a round listing the sorted candidates and
broadcast the head of the sorted list as the round's proposed intent.  The
second component is the `proposed_intent` field of the broadcast
coordination message (`none` when no round was opened). -/
def coordinate_intents (st : NFTState) (now : Int) (contract_address : String) :
    NFTState × Option String :=
  let contract_intents := pendingIntentsFor st contract_address
  if contract_intents.length ≤ 1 then (st, none)
  else
    let sorted_intents := sortIntentsDesc contract_intents
    let round_id := "coord_" ++ contract_address ++ "_" ++ toString now
    let round : CoordRound :=
      { contract := contract_address
        intents := some (sorted_intents.map (fun intent => intent.intent_id))
        proposed_intent := none
        votes := []
        status := "voting" }
    let winner_id := sorted_intents.head?.map (fun intent => intent.intent_id)
    let rounds' := alSet st.coordination_rounds round_id round
    ({ st with coordination_rounds := rounds' }, winner_id)

/-- `NFTMintCoordinator._handle_intent_message`: store the remote intent
(status `"pending"`, the dataclass default) and run conflict coordination
for its contract.  Second component as in `coordinate_intents`. -/
def handle_intent_message (st : NFTState) (now : Int)
    (intent_id sender_id target_contract function_call : String)
    (gas_estimate priority timestamp : Int) : NFTState × Option String :=
  let intent : IntentData :=
    { intent_id := intent_id
      sender_id := sender_id
      contract_address := target_contract
      function_call := function_call
      gas_estimate := gas_estimate
      priority := priority
      timestamp := timestamp
      status := "pending" }
  let st1 := { st with intents := alSet st.intents intent_id intent }
  coordinate_intents st1 now target_contract

/-- `NFTMintCoordinator._execute_intent` as a transform of the intent store:
unknown intents are ignored; a peer's intent is marked
`"executed_by_peer"`; a local intent is submitted and ends `"confirmed"`
(receipt status 1) or `"failed"` (other receipt status, or an exception). -/
def execute_intent (self_peer_id : String)
    (intents : List (String × IntentData)) (intent_id : String)
    (ledger : LedgerResult) : List (String × IntentData) :=
  match alGet intents intent_id with
  | none => intents
  | some intent =>
    if intent.sender_id ≠ self_peer_id then
      alSet intents intent_id { intent with status := "executed_by_peer" }
    else
      match ledger with
      | LedgerResult.success true =>
        alSet intents intent_id { intent with status := "confirmed" }
      | LedgerResult.success false =>
        alSet intents intent_id { intent with status := "failed" }
      | LedgerResult.failure =>
        alSet intents intent_id { intent with status := "failed" }

/-- The round-initialization step of
`NFTMintCoordinator._handle_coordination_message`: when the round id is new
locally, store a fresh round with an empty vote map and status `"voting"`. -/
def init_coordination_round (st : NFTState)
    (round_id proposed_intent contract : String) :
    List (String × CoordRound) :=
  if (alGet st.coordination_rounds round_id).isNone then
    alSet st.coordination_rounds round_id
      { contract := contract
        intents := none
        proposed_intent := some proposed_intent
        votes := []
        status := "voting" }
  else st.coordination_rounds

/-- `NFTMintCoordinator._handle_coordination_message`: initialize the round
if it is new, always record a local approving vote, and once the vote count
reaches `floor(total_peers / 2) + 1` (with `total_peers` = connected peers
plus self), execute the message's proposed intent and mark the round
`"executed"` when strictly more than half of the cast votes approve,
otherwise mark it `"rejected"`. -/
def handle_coordination_message (st : NFTState) (connected_peers : Nat)
    (ledger : LedgerResult)
    (round_id proposed_intent contract _sender_id : String) : NFTState :=
  let rounds0 := init_coordination_round st round_id proposed_intent contract
  match alGet rounds0 round_id with
  | none => st
  | some round =>
    let round1 := { round with votes := alSet round.votes st.peer_id true }
    let total_peers := connected_peers + 1
    if round1.votes.length ≥ total_peers / 2 + 1 then
      let yes_votes := (round1.votes.filter (fun kv => kv.2)).length
      if yes_votes > round1.votes.length / 2 then
        let intents' := execute_intent st.peer_id st.intents proposed_intent ledger
        let rounds' := alSet rounds0 round_id { round1 with status := "executed" }
        { st with intents := intents', coordination_rounds := rounds' }
      else
        let rounds' := alSet rounds0 round_id { round1 with status := "rejected" }
        { st with coordination_rounds := rounds' }
    else
      { st with coordination_rounds := alSet rounds0 round_id round1 }

/-! ## Derived predicates and spec-side quantities -/

/-- Non-strict lexicographic order on the sort key `(priority, timestamp)`
of an intent. -/
def intentKeyLe (a b : IntentData) : Prop :=
  a.priority < b.priority ∨
    (a.priority = b.priority ∧ a.timestamp ≤ b.timestamp)

/-- Spec-side quantity for the tally claim: "the sum of the weights of all
approving votes". -/
def approvingWeight (votes : List (String × VoteData)) : Int :=
  ((votes.filter (fun kv => kv.2.vote)).map (fun kv => kv.2.power)).sum

/-- Spec-side quantity for the tally claim: "the sum of the weights of all
rejecting votes". -/
def rejectingWeight (votes : List (String × VoteData)) : Int :=
  ((votes.filter (fun kv => !kv.2.vote)).map (fun kv => kv.2.power)).sum

/-- The session invariant of the game coordinator: every stored session's
sequence counter equals the length of its move log. -/
def SeqInv (st : GameCoordState) : Prop :=
  ∀ game_id game, alGet st.games game_id = some game →
    game.sequence = (game.moves.length : Int)

/-! ## Concrete example states

Small closed states used by the counterexamples and witnesses below. -/

/-- A pending intent on contract `"c"` with the given priority and creation
timestamp. -/
def exIntent (id : String) (p t : Int) : IntentData :=
  { intent_id := id, sender_id := "peerA", contract_address := "c",
    function_call := "mint(1)", gas_estimate := 100, priority := p,
    timestamp := t, status := "pending" }

/-- The spec's own example population: pending intents `{P=5,t=10}`,
`{P=5,t=5}`, `{P=3,t=1}` on one contract. -/
def exNFTSt : NFTState :=
  { peer_id := "me",
    intents := [("i10", exIntent "i10" 5 10), ("i5", exIntent "i5" 5 5),
                ("i1", exIntent "i1" 3 1)],
    coordination_rounds := [] }

/-- An NFT-coordinator state for the quorum witness: one remote approving
vote is already recorded in round `"r1"`, and the proposed intent `"i10"`
is a peer's intent, in store. -/
def exNFTSt2 : NFTState :=
  { peer_id := "me",
    intents := [("i10", exIntent "i10" 5 10)],
    coordination_rounds :=
      [("r1", { contract := "c", intents := none,
                proposed_intent := some "i10",
                votes := [("x", true)], status := "voting" })] }

/-- Digest stub for concrete runs (no claim inspects a digest value). -/
def trivDigest : Blob → String := fun _ => ""

/-- The failing-input trace for the checkpoint-cadence claim: `n` local
moves made at seconds `1, 2, ...` (all far below the 300-second elapsed-time
trigger). -/
def playMoves (st : GameCoordState) (game_id : String) : Nat → GameCoordState
  | 0 => st
  | n + 1 =>
    (make_move (playMoves st game_id n) (n + 1 : Nat) trivDigest game_id []).1

/-- A fresh game coordinator owned by peer `"p"`. -/
def exGameSt0 : GameCoordState := { peer_id := "p", games := [] }

/-- One `"turn_based"` session created at second 0 (its id is
`"game_p_0"`). -/
def exGameSt1 : GameCoordState := (create_game exGameSt0 0 "turn_based" []).1

/-- A game coordinator holding a session `"g1"` expecting sequence 3, used
by the move-ordering witness. -/
def exGameSt2 : GameCoordState :=
  { peer_id := "p",
    games := [("g1",
      { game_id := "g1", creator := "p", game_type := "turn_based",
        state := [], moves :=
          [{ player := "p", data := [], sequence := 0, timestamp := 1 },
           { player := "q", data := [], sequence := 1, timestamp := 2 },
           { player := "p", data := [], sequence := 2, timestamp := 3 }],
        sequence := 3, players := ["p", "q"], status := "active",
        last_checkpoint := 0, checkpoints := [] })] }

/-- A fresh voting coordinator owned by peer `"me"`. -/
def exVoting0 : VotingState := { peer_id := "me", proposals := [] }

/-- Proposal `"p1"` received at second 0 with a 10-second voting window. -/
def exVoting1 : VotingState :=
  handle_proposal_message exVoting0 "p1" "alice" "payload" 10 0

/-- A vote received at second 20 (past the deadline): the vote is recorded
and the proposal finalizes as `"passed"` (yes-weight 5 > no-weight 0). -/
def exVoting2 : VotingState :=
  handle_vote_message exVoting1 20 5 "p1" "a" true 5

/-- The spec's first tally example: an active proposal with votes
`{yes:10, yes:5, no:8}` and deadline 100. -/
def exProposal5 : Proposal :=
  { proposal_id := "p5", creator := "alice", data := "d",
    created_at := 0, voting_ends := 100,
    votes := [("a", ⟨true, 10, 1⟩), ("b", ⟨true, 5, 2⟩),
              ("c", ⟨false, 8, 3⟩)],
    status := "active", result := none, onchain_status := none }

/-- The spec's tie example: an active proposal with votes `{yes:5, no:5}`. -/
def exProposal6 : Proposal :=
  { proposal_id := "p6", creator := "alice", data := "d",
    created_at := 0, voting_ends := 100,
    votes := [("a", ⟨true, 5, 1⟩), ("b", ⟨false, 5, 2⟩)],
    status := "active", result := none, onchain_status := none }

/-- A voting state holding the spec's two tally examples. -/
def exVoting5 : VotingState :=
  { peer_id := "me", proposals := [("p5", exProposal5), ("p6", exProposal6)] }

/-! ## Helper lemmas -/

theorem alGet_alSet {α : Type} (l : List (String × α)) (k k' : String) (v : α) :
    alGet (alSet l k v) k' = if k = k' then some v else alGet l k' := by
  induction l with
  | nil => simp [alSet, alGet]
  | cons p rest ih =>
    obtain ⟨k₀, v₀⟩ := p
    by_cases h0 : k₀ = k
    · subst h0
      by_cases h1 : k₀ = k' <;> simp [alSet, alGet, h1]
    · by_cases h1 : k₀ = k'
      · have h2 : k ≠ k' := fun h => h0 (h1.trans h.symm)
        simp [alSet, alGet, h0, h1, h2, Ne.symm h2]
      · simp [alSet, alGet, h0, h1, ih]

theorem alGet_alSet_self {α : Type} (l : List (String × α)) (k : String)
    (v : α) : alGet (alSet l k v) k = some v := by
  simp [alGet_alSet]

theorem alGet_alSet_ne {α : Type} (l : List (String × α)) (k k' : String)
    (v : α) (h : k ≠ k') : alGet (alSet l k v) k' = alGet l k' := by
  simp [alGet_alSet, h]

theorem length_alSet_of_none {α : Type} (l : List (String × α)) (k : String)
    (v : α) (h : alGet l k = none) :
    (alSet l k v).length = l.length + 1 := by
  induction l with
  | nil => simp [alSet]
  | cons p rest ih =>
    obtain ⟨k₀, v₀⟩ := p
    by_cases h0 : k₀ = k
    · simp [alGet, h0] at h
    · simp [alGet, h0] at h
      simp [alSet, h0, ih h]

theorem intentKeyLt_iff (a b : IntentData) :
    intentKeyLt a b = true ↔
      (a.priority < b.priority ∨
        (a.priority = b.priority ∧ a.timestamp < b.timestamp)) := by
  simp [intentKeyLt]

theorem intentKeyLe_refl (a : IntentData) : intentKeyLe a a :=
  Or.inr ⟨rfl, le_refl _⟩

theorem intentKeyLe_trans {a b c : IntentData} (h1 : intentKeyLe a b)
    (h2 : intentKeyLe b c) : intentKeyLe a c := by
  unfold intentKeyLe at *
  omega

theorem intentKeyLe_of_lt {a b : IntentData} (h : intentKeyLt a b = true) :
    intentKeyLe a b := by
  rw [intentKeyLt_iff] at h
  unfold intentKeyLe
  omega

theorem intentKeyLe_of_not_lt {a b : IntentData}
    (h : ¬ intentKeyLt a b = true) : intentKeyLe b a := by
  rw [intentKeyLt_iff] at h
  unfold intentKeyLe
  omega

theorem mem_insertDescIntent (x y : IntentData) (l : List IntentData) :
    y ∈ insertDescIntent x l ↔ y = x ∨ y ∈ l := by
  induction l with
  | nil => simp [insertDescIntent]
  | cons z zs ih =>
    by_cases h : intentKeyLt z x = true
    · simp [insertDescIntent, h, ih]
    · simp [insertDescIntent, h, ih]
      tauto

theorem length_insertDescIntent (x : IntentData) (l : List IntentData) :
    (insertDescIntent x l).length = l.length + 1 := by
  induction l with
  | nil => rfl
  | cons z zs ih =>
    by_cases h : intentKeyLt z x = true <;>
      simp [insertDescIntent, h, ih]

theorem insertDescIntent_head_top (x : IntentData) (l : List IntentData)
    (h : ∀ w, l.head? = some w → ∀ y ∈ l, intentKeyLe y w) :
    ∀ w, (insertDescIntent x l).head? = some w →
      ∀ y ∈ insertDescIntent x l, intentKeyLe y w := by
  cases l with
  | nil =>
    intro w hw y hy
    simp [insertDescIntent] at hw hy
    subst hw
    subst hy
    exact intentKeyLe_refl _
  | cons z zs =>
    by_cases hlt : intentKeyLt z x = true
    · intro w hw y hy
      simp [insertDescIntent, hlt] at hw hy
      subst hw
      rcases hy with rfl | rfl | hy
      · exact intentKeyLe_refl _
      · exact intentKeyLe_of_lt hlt
      · exact intentKeyLe_trans
          (h z rfl y (List.mem_cons_of_mem _ hy)) (intentKeyLe_of_lt hlt)
    · intro w hw y hy
      simp [insertDescIntent, hlt] at hw hy
      subst hw
      rcases hy with rfl | hy
      · exact intentKeyLe_refl _
      · rw [mem_insertDescIntent] at hy
        rcases hy with rfl | hy
        · exact intentKeyLe_of_not_lt hlt
        · exact h z rfl y (List.mem_cons_of_mem _ hy)

theorem sortFold_spec (xs : List IntentData) :
    ∀ acc : List IntentData,
      (∀ w, acc.head? = some w → ∀ y ∈ acc, intentKeyLe y w) →
      (∀ w, (xs.foldl (fun a x => insertDescIntent x a) acc).head? = some w →
          ∀ y ∈ xs.foldl (fun a x => insertDescIntent x a) acc,
            intentKeyLe y w) ∧
      (∀ y, y ∈ xs.foldl (fun a x => insertDescIntent x a) acc ↔
          y ∈ acc ∨ y ∈ xs) ∧
      (xs.foldl (fun a x => insertDescIntent x a) acc).length =
        acc.length + xs.length := by
  induction xs with
  | nil =>
    intro acc hacc
    refine ⟨hacc, ?_, rfl⟩
    simp
  | cons x xs ih =>
    intro acc hacc
    have h1 := insertDescIntent_head_top x acc hacc
    obtain ⟨ha, hb, hc⟩ := ih (insertDescIntent x acc) h1
    refine ⟨ha, ?_, ?_⟩
    · intro y
      rw [List.foldl_cons, hb y, mem_insertDescIntent]
      simp
      tauto
    · rw [List.foldl_cons, hc, length_insertDescIntent]
      simp
      omega

theorem sortIntentsDesc_spec (xs : List IntentData) :
    (∀ w, (sortIntentsDesc xs).head? = some w →
      ∀ y ∈ sortIntentsDesc xs, intentKeyLe y w) ∧
    (∀ y, y ∈ sortIntentsDesc xs ↔ y ∈ xs) ∧
    (sortIntentsDesc xs).length = xs.length := by
  have h := sortFold_spec xs [] (by simp)
  unfold sortIntentsDesc
  refine ⟨h.1, ?_, ?_⟩
  · intro y
    rw [h.2.1 y]
    simp
  · rw [h.2.2]
    simp

theorem tallyVotes_foldl (votes : List (String × VoteData)) :
    ∀ y n t : Int,
      votes.foldl
        (fun acc kv =>
          let power := kv.2.power
          if kv.2.vote then (acc.1 + power, acc.2.1, acc.2.2 + power)
          else (acc.1, acc.2.1 + power, acc.2.2 + power)) (y, n, t) =
      (y + approvingWeight votes, n + rejectingWeight votes,
       t + approvingWeight votes + rejectingWeight votes) := by
  induction votes with
  | nil =>
    intro y n t
    simp [approvingWeight, rejectingWeight]
  | cons kv rest ih =>
    intro y n t
    by_cases h : kv.2.vote = true <;>
      simp [List.foldl_cons, h, ih, approvingWeight, rejectingWeight,
        Prod.mk.injEq] <;> omega

theorem tallyVotes_eq (votes : List (String × VoteData)) :
    tallyVotes votes =
      (approvingWeight votes, rejectingWeight votes,
       approvingWeight votes + rejectingWeight votes) := by
  have h := tallyVotes_foldl votes 0 0 0
  unfold tallyVotes
  simpa using h

theorem handle_vote_message_not_active (st : VotingState) (now : Int)
    (connected_peers : Nat) (proposal_id sender_id : String) (vote : Bool)
    (voting_power : Int) (p : Proposal)
    (h : alGet st.proposals proposal_id = some p)
    (hna : p.status ≠ "active") :
    (handle_vote_message st now connected_peers proposal_id sender_id vote
        voting_power).proposals =
      alSet st.proposals proposal_id
        { p with votes :=
            alSet p.votes sender_id ⟨vote, voting_power, now⟩ } := by
  unfold handle_vote_message
  rw [h]
  unfold check_finalization
  simp [alGet_alSet_self, hna]

theorem submit_vote_frame (st : VotingState) (now : Int)
    (proposal_id : String) (vote : Bool) (voting_power : Int) (p : Proposal)
    (h : alGet st.proposals proposal_id = some p) :
    ∃ p',
      alGet ((submit_vote st now proposal_id vote voting_power).1).proposals
          proposal_id = some p' ∧
        p'.status = p.status ∧ p'.result = p.result := by
  unfold submit_vote
  rw [h]
  by_cases hd : now > p.voting_ends
  · simp only [hd, if_true]
    exact ⟨p, h, rfl, rfl⟩
  · simp only [hd, if_false]
    exact ⟨_, alGet_alSet_self _ _ _, rfl, rfl⟩

/-! ## Claims -/

/-- Claim C5: when a proposal is finalized, the computed yes-weight is the
sum of the weights of all approving votes and the no-weight is the sum of
the weights of all rejecting votes, and its final status is `"passed"` if
and only if yes-weight is strictly greater than no-weight; an exact tie
finalizes as `"rejected"`. -/
theorem c5_finalize_tally (st : VotingState) (now : Int)
    (proposal_id : String) (p : Proposal)
    (h : alGet st.proposals proposal_id = some p) :
    ∃ p',
      alGet (finalize_proposal st now proposal_id).proposals proposal_id =
          some p' ∧
        p'.result = some
          { passed := approvingWeight p.votes > rejectingWeight p.votes
            yes_votes := approvingWeight p.votes
            no_votes := rejectingWeight p.votes
            total_power := approvingWeight p.votes + rejectingWeight p.votes
            finalized_at := now } ∧
        (p'.status = "passed" ↔
          approvingWeight p.votes > rejectingWeight p.votes) ∧
        (p'.status = "rejected" ↔
          ¬ approvingWeight p.votes > rejectingWeight p.votes) := by
  unfold finalize_proposal
  rw [h]
  dsimp only
  rw [tallyVotes_eq]
  by_cases hp : approvingWeight p.votes > rejectingWeight p.votes
  · by_cases hc : p.creator = st.peer_id <;>
    · refine ⟨_, alGet_alSet_self _ _ _, ?_⟩
      simp [hp, hc]
  · refine ⟨_, alGet_alSet_self _ _ _, ?_⟩
    simp [hp]

/-- Witness for C5 at the spec's examples: `{yes:10, yes:5, no:8}` finalizes
as `"passed"` (15 > 8) and `{yes:5, no:5}` finalizes as `"rejected"`. -/
theorem c5_finalize_tally_witness :
    (∃ p',
      alGet (finalize_proposal exVoting5 50 "p5").proposals "p5" = some p' ∧
        p'.result = some
          { passed := approvingWeight exProposal5.votes >
              rejectingWeight exProposal5.votes
            yes_votes := approvingWeight exProposal5.votes
            no_votes := rejectingWeight exProposal5.votes
            total_power := approvingWeight exProposal5.votes +
              rejectingWeight exProposal5.votes
            finalized_at := 50 } ∧
        (p'.status = "passed" ↔
          approvingWeight exProposal5.votes >
            rejectingWeight exProposal5.votes) ∧
        (p'.status = "rejected" ↔
          ¬ approvingWeight exProposal5.votes >
              rejectingWeight exProposal5.votes)) ∧
    ((alGet (finalize_proposal exVoting5 50 "p5").proposals "p5").map
        (fun p => p.status) = some "passed") ∧
    ((alGet (finalize_proposal exVoting5 50 "p6").proposals "p6").map
        (fun p => p.status) = some "rejected") :=
  ⟨c5_finalize_tally exVoting5 50 "p5" exProposal5 (by decide),
   by decide, by decide⟩

/-- Claim C8: `submit_vote` returns failure and leaves the proposal store
entirely unchanged whenever the proposal id is unknown or the voting
deadline has passed; otherwise it records the local vote under the local
peer's identity, overwriting any prior local vote, and returns `true`. -/
theorem c8_submit_vote (st : VotingState) (now : Int) (proposal_id : String)
    (vote : Bool) (voting_power : Int) :
    (alGet st.proposals proposal_id = none →
      submit_vote st now proposal_id vote voting_power = (st, false)) ∧
    (∀ p, alGet st.proposals proposal_id = some p →
      now > p.voting_ends →
        submit_vote st now proposal_id vote voting_power = (st, false)) ∧
    (∀ p, alGet st.proposals proposal_id = some p →
      ¬ now > p.voting_ends →
        submit_vote st now proposal_id vote voting_power =
          ({ st with
              proposals := alSet st.proposals proposal_id { p with
                votes := alSet p.votes st.peer_id ⟨vote, voting_power, now⟩ } },
           true)) := by
  refine ⟨?_, ?_, ?_⟩
  · intro h
    unfold submit_vote
    rw [h]
  · intro p h hd
    unfold submit_vote
    rw [h]
    simp [hd]
  · intro p h hd
    unfold submit_vote
    rw [h]
    simp [hd]

/-- Witness for C8: in `exVoting1` (deadline 10) a vote at second 20 and a
vote on an unknown id both fail leaving the state unchanged, while a vote
at second 5 is recorded under the local peer `"me"` and succeeds. -/
theorem c8_submit_vote_witness :
    (alGet exVoting1.proposals "nope" = none →
      submit_vote exVoting1 20 "nope" true 1 = (exVoting1, false)) ∧
    (∀ p, alGet exVoting1.proposals "p1" = some p →
      (20 : Int) > p.voting_ends →
        submit_vote exVoting1 20 "p1" true 1 = (exVoting1, false)) ∧
    (∀ p, alGet exVoting1.proposals "p1" = some p →
      ¬ (5 : Int) > p.voting_ends →
        submit_vote exVoting1 5 "p1" true 1 =
          ({ exVoting1 with
              proposals := alSet exVoting1.proposals "p1" { p with
                votes := alSet p.votes exVoting1.peer_id ⟨true, 1, 5⟩ } },
           true)) :=
  ⟨(c8_submit_vote exVoting1 20 "nope" true 1).1,
   fun p h => (c8_submit_vote exVoting1 20 "p1" true 1).2.1 p h,
   fun p h => (c8_submit_vote exVoting1 5 "p1" true 1).2.2 p h⟩

/-- Claim C9: receiving or re-submitting a vote for an already finalized
proposal (status `"passed"` or `"rejected"`) leaves the proposal's stored
result summary unchanged. -/
theorem c9_result_frame (st : VotingState) (now : Int)
    (connected_peers : Nat) (proposal_id sender_id : String) (vote : Bool)
    (voting_power : Int) (p : Proposal)
    (h : alGet st.proposals proposal_id = some p)
    (hterm : p.status = "passed" ∨ p.status = "rejected") :
    (∃ p', alGet (handle_vote_message st now connected_peers proposal_id
          sender_id vote voting_power).proposals proposal_id = some p' ∧
        p'.result = p.result) ∧
    (∃ p', alGet ((submit_vote st now proposal_id vote
          voting_power).1).proposals proposal_id = some p' ∧
        p'.result = p.result) := by
  have hna : p.status ≠ "active" := by
    rcases hterm with h1 | h1 <;> rw [h1] <;> decide
  constructor
  · rw [handle_vote_message_not_active st now connected_peers proposal_id
      sender_id vote voting_power p h hna]
    exact ⟨_, alGet_alSet_self _ _ _, rfl⟩
  · obtain ⟨p', hp', _, hres⟩ :=
      submit_vote_frame st now proposal_id vote voting_power p h
    exact ⟨p', hp', hres⟩

/-- Witness for C9: in `exVoting2` the proposal `"p1"` is `"passed"`; a
further received vote from `"b"` and a local re-submission both leave the
stored result summary unchanged. -/
theorem c9_result_frame_witness :
    ((∃ p', alGet (handle_vote_message exVoting2 21 5 "p1" "b" false
          7).proposals "p1" = some p' ∧
        p'.result = (Proposal.result
          { proposal_id := "p1", creator := "alice", data := "payload",
            created_at := 0, voting_ends := 10,
            votes := [("a", ⟨true, 5, 20⟩)], status := "passed",
            result := some ⟨true, 5, 0, 5, 20⟩,
            onchain_status := none })) ∧
    (∃ p', alGet ((submit_vote exVoting2 21 "p1" false 7).1).proposals "p1" =
        some p' ∧
      p'.result = (Proposal.result
          { proposal_id := "p1", creator := "alice", data := "payload",
            created_at := 0, voting_ends := 10,
            votes := [("a", ⟨true, 5, 20⟩)], status := "passed",
            result := some ⟨true, 5, 0, 5, 20⟩,
            onchain_status := none }))) :=
  c9_result_frame exVoting2 21 5 "p1" "b" false 7 _ (by decide) (by decide)

/-- Counterexample to C3: in `exVoting2` the proposal `"p1"` is finalized
(`"passed"`), yet re-receiving the proposal message with the same proposal
id overwrites the record and returns its status to `"active"` — the
terminal state is not final against proposal messages. -/
theorem c3_counterexample :
    ((alGet exVoting2.proposals "p1").map (fun p => p.status) =
      some "passed") ∧
    ((alGet (handle_proposal_message exVoting2 "p1" "alice" "payload" 10
        0).proposals "p1").map (fun p => p.status) = some "active") := by
  decide

/-- Claim C3 as amended: a finalized proposal (status `"passed"` or
`"rejected"`) keeps its status under any received vote message and any local
vote submission; only a re-received proposal message with the same id
overwrites the record back to `"active"` (see `c3_counterexample`). -/
theorem c3_terminal_status (st : VotingState) (now : Int)
    (connected_peers : Nat) (proposal_id sender_id : String) (vote : Bool)
    (voting_power : Int) (p : Proposal)
    (h : alGet st.proposals proposal_id = some p)
    (hterm : p.status = "passed" ∨ p.status = "rejected") :
    (∃ p', alGet (handle_vote_message st now connected_peers proposal_id
          sender_id vote voting_power).proposals proposal_id = some p' ∧
        p'.status = p.status) ∧
    (∃ p', alGet ((submit_vote st now proposal_id vote
          voting_power).1).proposals proposal_id = some p' ∧
        p'.status = p.status) := by
  have hna : p.status ≠ "active" := by
    rcases hterm with h1 | h1 <;> rw [h1] <;> decide
  constructor
  · rw [handle_vote_message_not_active st now connected_peers proposal_id
      sender_id vote voting_power p h hna]
    exact ⟨_, alGet_alSet_self _ _ _, rfl⟩
  · obtain ⟨p', hp', hst, _⟩ :=
      submit_vote_frame st now proposal_id vote voting_power p h
    exact ⟨p', hp', hst⟩

/-- Witness for the amended C3 at `exVoting2`: the `"passed"` proposal
`"p1"` keeps status `"passed"` under a further vote message and a local
re-submission. -/
theorem c3_terminal_status_witness :
    (∃ p', alGet (handle_vote_message exVoting2 21 5 "p1" "b" false
          7).proposals "p1" = some p' ∧
        p'.status = (Proposal.status
          { proposal_id := "p1", creator := "alice", data := "payload",
            created_at := 0, voting_ends := 10,
            votes := [("a", ⟨true, 5, 20⟩)], status := "passed",
            result := some ⟨true, 5, 0, 5, 20⟩,
            onchain_status := none })) ∧
    (∃ p', alGet ((submit_vote exVoting2 21 "p1" false 7).1).proposals "p1" =
        some p' ∧
      p'.status = (Proposal.status
          { proposal_id := "p1", creator := "alice", data := "payload",
            created_at := 0, voting_ends := 10,
            votes := [("a", ⟨true, 5, 20⟩)], status := "passed",
            result := some ⟨true, 5, 0, 5, 20⟩,
            onchain_status := none })) :=
  c3_terminal_status exVoting2 21 5 "p1" "b" false 7 _ (by decide) (by decide)

/-- Counterexample to C4: the proposal `"p1"` of `exVoting2` is finalized
with one recorded vote, yet a received vote message from a new sender
`"b"` grows its vote map to two entries. -/
theorem c4_counterexample :
    ((alGet exVoting2.proposals "p1").map
        (fun p => (p.status, p.votes.length)) = some ("passed", 1)) ∧
    ((alGet (handle_vote_message exVoting2 21 5 "p1" "b" false
        7).proposals "p1").map (fun p => p.votes.length) = some 2) := by
  decide

/-- Claim C4 as amended: for a proposal that is no longer `"active"`, a
received vote message still records/overwrites the sender's vote in the
vote map (so the map can grow after finalization), but finalization is not
re-run: everything else in the record — in particular status and result —
is unchanged. -/
theorem c4_votes_after_finalization (st : VotingState) (now : Int)
    (connected_peers : Nat) (proposal_id sender_id : String) (vote : Bool)
    (voting_power : Int) (p : Proposal)
    (h : alGet st.proposals proposal_id = some p)
    (hna : p.status ≠ "active") :
    (handle_vote_message st now connected_peers proposal_id sender_id vote
        voting_power).proposals =
      alSet st.proposals proposal_id { p with
        votes := alSet p.votes sender_id ⟨vote, voting_power, now⟩ } :=
  handle_vote_message_not_active st now connected_peers proposal_id
    sender_id vote voting_power p h hna

/-- Witness for the amended C4 at `exVoting2`: the received vote from `"b"`
is recorded into the finalized proposal's vote map and nothing else
changes. -/
theorem c4_votes_after_finalization_witness :
    (handle_vote_message exVoting2 21 5 "p1" "b" false 7).proposals =
      alSet exVoting2.proposals "p1"
        { proposal_id := "p1", creator := "alice", data := "payload",
          created_at := 0, voting_ends := 10,
          votes := alSet [("a", ⟨true, 5, 20⟩)] "b" ⟨false, 7, 21⟩,
          status := "passed", result := some ⟨true, 5, 0, 5, 20⟩,
          onchain_status := none } :=
  c4_votes_after_finalization exVoting2 21 5 "p1" "b" false 7
    { proposal_id := "p1", creator := "alice", data := "payload",
      created_at := 0, voting_ends := 10,
      votes := [("a", ⟨true, 5, 20⟩)], status := "passed",
      result := some ⟨true, 5, 0, 5, 20⟩, onchain_status := none }
    (by decide) (by decide)

/-- Counterexample to C1 at the spec's own example: among pending intents
`{P=5,t=10}`, `{P=5,t=5}`, `{P=3,t=1}` the proposed candidate is the intent
with timestamp 10, not the claimed earliest-timestamp intent `"i5"` —
`reverse=True` sorts the tuple `(priority, timestamp)` descending, so the
LATER timestamp wins a priority tie. -/
theorem c1_counterexample :
    (coordinate_intents exNFTSt 100 "c").2 = some "i10" ∧
    (coordinate_intents exNFTSt 100 "c").2 ≠ some "i5" := by
  decide

/-- Claim C1 as amended: for two or more pending intents sharing a target
contract, the round's proposed candidate is a pending intent of that
contract with the lexicographically greatest `(priority, timestamp)` key —
higher priority wins and, among equal priority, the LATER creation
timestamp wins. -/
theorem c1_highest_key_wins (st : NFTState) (now : Int) (c : String)
    (h2 : 2 ≤ (pendingIntentsFor st c).length) :
    ∃ w, w ∈ pendingIntentsFor st c ∧
      (coordinate_intents st now c).2 = some w.intent_id ∧
      ∀ x ∈ pendingIntentsFor st c,
        x.priority < w.priority ∨
          (x.priority = w.priority ∧ x.timestamp ≤ w.timestamp) := by
  obtain ⟨htop, hmem, hlen⟩ := sortIntentsDesc_spec (pendingIntentsFor st c)
  cases hsort : sortIntentsDesc (pendingIntentsFor st c) with
  | nil =>
    rw [hsort] at hlen
    simp at hlen
    omega
  | cons w tail =>
    refine ⟨w, ?_, ?_, ?_⟩
    · rw [← hmem w, hsort]
      exact List.mem_cons_self _ _
    · have hc : ¬ (pendingIntentsFor st c).length ≤ 1 := by omega
      unfold coordinate_intents
      simp only [hc, if_false, hsort]
      rfl
    · intro x hx
      have hx' : x ∈ sortIntentsDesc (pendingIntentsFor st c) :=
        (hmem x).mpr hx
      have hle := htop w (by rw [hsort]; rfl) x hx'
      unfold intentKeyLe at hle
      exact hle

/-- Witness for the amended C1 at the spec's example population. -/
theorem c1_highest_key_wins_witness :
    2 ≤ (pendingIntentsFor exNFTSt "c").length ∧
    (∃ w, w ∈ pendingIntentsFor exNFTSt "c" ∧
      (coordinate_intents exNFTSt 100 "c").2 = some w.intent_id ∧
      ∀ x ∈ pendingIntentsFor exNFTSt "c",
        x.priority < w.priority ∨
          (x.priority = w.priority ∧ x.timestamp ≤ w.timestamp)) :=
  ⟨by decide, c1_highest_key_wins exNFTSt 100 "c" (by decide)⟩

/-- Claim C6: on a coordination message the local peer always records an
approving vote under its own identity; the round is decided only once the
vote count reaches `floor(total_peers / 2) + 1` (total = connected peers
plus self), and then the proposed intent is executed and the round marked
`"executed"` when strictly more than half of the cast votes approve,
otherwise the round is marked `"rejected"`. -/
theorem c6_coordination_quorum (st : NFTState) (connected_peers : Nat)
    (ledger : LedgerResult)
    (round_id proposed_intent contract sender_id : String) (r : CoordRound)
    (h : alGet (init_coordination_round st round_id proposed_intent contract)
        round_id = some r) :
    ∃ st' r',
      st' = handle_coordination_message st connected_peers ledger round_id
        proposed_intent contract sender_id ∧
      alGet st'.coordination_rounds round_id = some r' ∧
      r'.votes = alSet r.votes st.peer_id true ∧
      alGet r'.votes st.peer_id = some true ∧
      (r'.votes.length < (connected_peers + 1) / 2 + 1 →
        r'.status = r.status ∧ st'.intents = st.intents) ∧
      ((connected_peers + 1) / 2 + 1 ≤ r'.votes.length →
        ((r'.votes.filter (fun kv => kv.2)).length > r'.votes.length / 2 →
          r'.status = "executed" ∧
          st'.intents =
            execute_intent st.peer_id st.intents proposed_intent ledger) ∧
        (¬ (r'.votes.filter (fun kv => kv.2)).length > r'.votes.length / 2 →
          r'.status = "rejected" ∧ st'.intents = st.intents)) := by
  by_cases h1 : (alSet r.votes st.peer_id true).length ≥
      (connected_peers + 1) / 2 + 1
  · by_cases h2 : ((alSet r.votes st.peer_id true).filter
        (fun kv => kv.2)).length > (alSet r.votes st.peer_id true).length / 2
    · have heq : handle_coordination_message st connected_peers ledger
          round_id proposed_intent contract sender_id =
          { st with
            intents :=
              execute_intent st.peer_id st.intents proposed_intent ledger,
            coordination_rounds := alSet
              (init_coordination_round st round_id proposed_intent contract)
              round_id
              { r with votes := alSet r.votes st.peer_id true, status := "executed" } } := by
        unfold handle_coordination_message
        dsimp only
        rw [h]
        dsimp only
        rw [if_pos h1, if_pos h2]
      refine ⟨_,
        { r with votes := alSet r.votes st.peer_id true, status := "executed" },
        rfl, ?_, rfl, alGet_alSet_self _ _ _, ?_, ?_⟩
      · rw [heq]
        exact alGet_alSet_self _ _ _
      · intro hlt
        exfalso
        dsimp only at hlt
        omega
      · intro _
        refine ⟨fun _ => ⟨rfl, ?_⟩, fun hn => absurd h2 hn⟩
        rw [heq]
    · have heq : handle_coordination_message st connected_peers ledger
          round_id proposed_intent contract sender_id =
          { st with
            coordination_rounds := alSet
              (init_coordination_round st round_id proposed_intent contract)
              round_id
              { r with votes := alSet r.votes st.peer_id true, status := "rejected" } } := by
        unfold handle_coordination_message
        dsimp only
        rw [h]
        dsimp only
        rw [if_pos h1, if_neg h2]
      refine ⟨_,
        { r with votes := alSet r.votes st.peer_id true, status := "rejected" },
        rfl, ?_, rfl, alGet_alSet_self _ _ _, ?_, ?_⟩
      · rw [heq]
        exact alGet_alSet_self _ _ _
      · intro hlt
        exfalso
        dsimp only at hlt
        omega
      · intro _
        refine ⟨fun hy => absurd hy h2, fun _ => ⟨rfl, ?_⟩⟩
        rw [heq]
  · have heq : handle_coordination_message st connected_peers ledger
        round_id proposed_intent contract sender_id =
        { st with
          coordination_rounds := alSet
            (init_coordination_round st round_id proposed_intent contract)
            round_id { r with votes := alSet r.votes st.peer_id true } } := by
      unfold handle_coordination_message
      dsimp only
      rw [h]
      dsimp only
      rw [if_neg h1]
    refine ⟨_, { r with votes := alSet r.votes st.peer_id true },
      rfl, ?_, rfl, alGet_alSet_self _ _ _, ?_, ?_⟩
    · rw [heq]
      exact alGet_alSet_self _ _ _
    · intro _
      refine ⟨rfl, ?_⟩
      rw [heq]
    · intro hge
      exfalso
      dsimp only at hge
      omega

/-- Witness for C6 at `exNFTSt2`: with two connected peers (quorum 2), one
recorded remote approval and the local approval, the round `"r1"` is decided
and executed and the peer-owned intent `"i10"` is marked by
`execute_intent`. -/
theorem c6_coordination_quorum_witness :
    ∃ st' r',
      st' = handle_coordination_message exNFTSt2 2 (LedgerResult.success true)
        "r1" "i10" "c" "x" ∧
      alGet st'.coordination_rounds "r1" = some r' ∧
      r'.votes = alSet [("x", true)] exNFTSt2.peer_id true ∧
      alGet r'.votes exNFTSt2.peer_id = some true ∧
      (r'.votes.length < (2 + 1) / 2 + 1 →
        r'.status = CoordRound.status
          { contract := "c", intents := none, proposed_intent := some "i10",
            votes := [("x", true)], status := "voting" } ∧
        st'.intents = exNFTSt2.intents) ∧
      ((2 + 1) / 2 + 1 ≤ r'.votes.length →
        ((r'.votes.filter (fun kv => kv.2)).length > r'.votes.length / 2 →
          r'.status = "executed" ∧
          st'.intents = execute_intent exNFTSt2.peer_id exNFTSt2.intents
            "i10" (LedgerResult.success true)) ∧
        (¬ (r'.votes.filter (fun kv => kv.2)).length > r'.votes.length / 2 →
          r'.status = "rejected" ∧ st'.intents = exNFTSt2.intents)) :=
  c6_coordination_quorum exNFTSt2 2 (LedgerResult.success true) "r1" "i10"
    "c" "x"
    { contract := "c", intents := none, proposed_intent := some "i10",
      votes := [("x", true)], status := "voting" }
    (by decide)

theorem update_game_state_frame (g : Game) (m : Move) :
    (update_game_state g m).moves = g.moves ∧
    (update_game_state g m).sequence = g.sequence ∧
    (update_game_state g m).status = g.status := by
  unfold update_game_state
  by_cases h : g.game_type = "turn_based" <;> simp [h]

theorem seqInv_check_checkpoint (st : GameCoordState) (now : Int)
    (digest : Blob → String) (game_id : String) (h : SeqInv st) :
    SeqInv (check_checkpoint st now digest game_id) := by
  intro gid' g' hg'
  unfold check_checkpoint create_checkpoint at hg'
  cases hg : alGet st.games game_id with
  | none =>
    rw [hg] at hg'
    exact h gid' g' hg'
  | some game =>
    rw [hg] at hg'
    dsimp only at hg'
    split at hg'
    · rw [alGet_alSet] at hg'
      split at hg'
      · rename_i heq
        injection hg' with hg'
        subst hg'
        dsimp only
        rw [heq] at hg
        exact h gid' game hg
      · exact h gid' g' hg'
    · exact h gid' g' hg'

theorem seqInv_create_game (st : GameCoordState) (now : Int)
    (game_type : String) (initial_state : Blob) (h : SeqInv st) :
    SeqInv (create_game st now game_type initial_state).1 := by
  intro gid' g' hg'
  unfold create_game at hg'
  dsimp only at hg'
  rw [alGet_alSet] at hg'
  split at hg'
  · injection hg' with hg'
    subst hg'
    rfl
  · exact h gid' g' hg'

theorem seqInv_make_move (st : GameCoordState) (now : Int)
    (digest : Blob → String) (game_id : String) (move_data : Blob)
    (h : SeqInv st) : SeqInv (make_move st now digest game_id move_data).1 := by
  unfold make_move
  cases hg : alGet st.games game_id with
  | none => exact h
  | some game =>
    dsimp only
    split
    · exact h
    · dsimp only
      apply seqInv_check_checkpoint
      intro gid' g' hg'
      rw [alGet_alSet] at hg'
      split at hg'
      · rename_i heq
        injection hg' with hg'
        subst hg'
        obtain ⟨hm, hs, _⟩ := update_game_state_frame
          { game with
            moves := game.moves ++
              [{ player := st.peer_id, data := move_data,
                 sequence := game.sequence, timestamp := now }],
            sequence := game.sequence + 1 }
          { player := st.peer_id, data := move_data,
            sequence := game.sequence, timestamp := now }
        rw [hm, hs]
        dsimp only
        have hgame := h game_id game hg
        simp
        omega
      · exact h gid' g' hg'

theorem seqInv_handle_move_message (st : GameCoordState) (now : Int)
    (game_id sender_id : String) (move_data : Blob) (sequence : Int)
    (h : SeqInv st) :
    SeqInv (handle_move_message st now game_id sender_id move_data sequence) := by
  unfold handle_move_message
  cases hg : alGet st.games game_id with
  | none => exact h
  | some game =>
    dsimp only
    split
    · exact h
    · intro gid' g' hg'
      dsimp only at hg'
      rw [alGet_alSet] at hg'
      split at hg'
      · rename_i heq
        injection hg' with hg'
        subst hg'
        obtain ⟨hm, hs, _⟩ := update_game_state_frame
          { game with
            moves := game.moves ++
              [{ player := sender_id, data := move_data,
                 sequence := sequence, timestamp := now }],
            sequence := game.sequence + 1 }
          { player := sender_id, data := move_data,
            sequence := sequence, timestamp := now }
        rw [hm, hs]
        dsimp only
        have hgame := h game_id game hg
        simp
        omega
      · exact h gid' g' hg'

/-- Claim C7: for a known game session, a remote move whose sequence number
differs from the session's counter is dropped with the whole coordinator
state (move log, counter, state blob) unchanged; a move whose sequence
number equals the counter is appended and the counter incremented by
exactly 1. -/
theorem c7_move_sequencing (st : GameCoordState) (now : Int)
    (game_id sender_id : String) (move_data : Blob) (sequence : Int)
    (g : Game) (h : alGet st.games game_id = some g) :
    (sequence ≠ g.sequence →
      handle_move_message st now game_id sender_id move_data sequence = st) ∧
    (sequence = g.sequence →
      ∃ g', alGet (handle_move_message st now game_id sender_id move_data
          sequence).games game_id = some g' ∧
        g'.moves = g.moves ++
          [{ player := sender_id, data := move_data, sequence := sequence,
             timestamp := now }] ∧
        g'.sequence = g.sequence + 1) := by
  constructor
  · intro hne
    unfold handle_move_message
    rw [h]
    dsimp only
    rw [if_pos hne]
  · intro he
    unfold handle_move_message
    rw [h]
    dsimp only
    rw [if_neg (by simp [he])]
    refine ⟨_, alGet_alSet_self _ _ _, ?_⟩
    obtain ⟨hm, hs, _⟩ := update_game_state_frame
      { g with
        moves := g.moves ++
          [{ player := sender_id, data := move_data,
             sequence := sequence, timestamp := now }],
        sequence := g.sequence + 1 }
      { player := sender_id, data := move_data,
        sequence := sequence, timestamp := now }
    rw [hm, hs]
    exact ⟨rfl, rfl⟩

/-- Witness for C7 at `exGameSt2` (session `"g1"` expects sequence 3):
sequence 2 is dropped leaving the state unchanged, sequence 3 is appended
and the counter becomes 4. -/
theorem c7_move_sequencing_witness :
    (((2 : Int) ≠ 3 →
      handle_move_message exGameSt2 9 "g1" "q" [] 2 = exGameSt2) ∧
    ((2 : Int) = 3 →
      ∃ g', alGet (handle_move_message exGameSt2 9 "g1" "q" []
          2).games "g1" = some g' ∧
        g'.moves = Game.moves
          { game_id := "g1", creator := "p", game_type := "turn_based",
            state := [], moves :=
              [{ player := "p", data := [], sequence := 0, timestamp := 1 },
               { player := "q", data := [], sequence := 1, timestamp := 2 },
               { player := "p", data := [], sequence := 2, timestamp := 3 }],
            sequence := 3, players := ["p", "q"], status := "active",
            last_checkpoint := 0, checkpoints := [] } ++
          [{ player := "q", data := [], sequence := 2, timestamp := 9 }] ∧
        g'.sequence = 3 + 1)) ∧
    ((alGet (handle_move_message exGameSt2 9 "g1" "q" [] 3).games "g1").map
      (fun g => (g.moves.length, g.sequence)) = some (4, 4)) :=
  ⟨by
    have hc7 := c7_move_sequencing exGameSt2 9 "g1" "q" [] 2
      { game_id := "g1", creator := "p", game_type := "turn_based",
        state := [], moves :=
          [{ player := "p", data := [], sequence := 0, timestamp := 1 },
           { player := "q", data := [], sequence := 1, timestamp := 2 },
           { player := "p", data := [], sequence := 2, timestamp := 3 }],
        sequence := 3, players := ["p", "q"], status := "active",
        last_checkpoint := 0, checkpoints := [] } (by decide)
    exact hc7,
   by decide⟩

/-- Claim C10: the invariant "a session's sequence counter equals the length
of its move log" holds for freshly created sessions (counter 0, empty log)
and is preserved by `create_game`, `make_move` (including its checkpoint
evaluation) and `handle_move_message`. -/
theorem c10_sequence_invariant (st : GameCoordState) (now : Int)
    (digest : Blob → String) (game_type : String) (initial_state : Blob)
    (game_id sender_id : String) (move_data : Blob) (sequence : Int)
    (h : SeqInv st) :
    (∀ g', alGet (create_game st now game_type initial_state).1.games
        (create_game st now game_type initial_state).2 = some g' →
      g'.sequence = 0 ∧ g'.moves = []) ∧
    SeqInv (create_game st now game_type initial_state).1 ∧
    SeqInv (make_move st now digest game_id move_data).1 ∧
    SeqInv (handle_move_message st now game_id sender_id move_data
      sequence) := by
  refine ⟨?_, seqInv_create_game st now game_type initial_state h,
    seqInv_make_move st now digest game_id move_data h,
    seqInv_handle_move_message st now game_id sender_id move_data sequence h⟩
  intro g' hg'
  unfold create_game at hg'
  dsimp only at hg'
  rw [alGet_alSet_self] at hg'
  injection hg' with hg'
  subst hg'
  exact ⟨rfl, rfl⟩

/-- Witness for C10 at the empty coordinator `exGameSt0` (whose invariant
holds vacuously). -/
theorem c10_sequence_invariant_witness :
    (∀ g', alGet (create_game exGameSt0 0 "turn_based" []).1.games
        (create_game exGameSt0 0 "turn_based" []).2 = some g' →
      g'.sequence = 0 ∧ g'.moves = []) ∧
    SeqInv (create_game exGameSt0 0 "turn_based" []).1 ∧
    SeqInv (make_move exGameSt0 1 trivDigest "nope" []).1 ∧
    SeqInv (handle_move_message exGameSt0 1 "nope" "q" [] 0) :=
  c10_sequence_invariant exGameSt0 0 trivDigest "turn_based" [] "nope" "q"
    [] 0 (fun gid g hg => by simp [exGameSt0, alGet] at hg)

/-- Evaluation of the checkpoint cadence at the failing input for claim C2:
`moves_since_checkpoint` is computed from the TOTAL move count and never
reset, so after the first checkpoint at move 10 the very next accepted move
(move 11, one move later) already produces a second checkpoint, instead of
requiring 10 further moves as the spec states. -/
theorem c2_checkpoint_divergence :
    ((alGet (playMoves exGameSt1 "game_p_0" 9).games "game_p_0").map
        (fun g => g.checkpoints.length) = some 0) ∧
    ((alGet (playMoves exGameSt1 "game_p_0" 10).games "game_p_0").map
        (fun g => g.checkpoints.length) = some 1) ∧
    ((alGet (playMoves exGameSt1 "game_p_0" 11).games "game_p_0").map
        (fun g => g.checkpoints.length) = some 2) ∧
    ((alGet (playMoves exGameSt1 "game_p_0" 11).games "game_p_0").map
        (fun g => g.checkpoints.map (fun c => c.move_count)) =
      some [10, 11]) := by
  decide
